import Mathlib

/-!
Verification development for the GitHub Stargazer Prospector pipeline
(`fetch_stargazers.py`).  The Python source is shallowly embedded: pure
functions become Lean functions, and HTTP interaction is modelled by
response oracles (`Nat → …Resp`, giving the response to the n-th request
issued by a function), so that the number of requests a function issues and
the way it reacts to statuses is visible in the embedding.  Timing effects
(`time.sleep`) carry no data and are not modelled.
-/

namespace Prospector

/-- Result of a GET on `/users/{username}` (`fetch_user_details`):
the HTTP status plus the nine profile fields the code extracts from the
JSON body when the status is 200.  Absent JSON keys are `none`. -/
structure Profile where
  name : Option String
  company : Option String
  email : Option String
  bio : Option String
  location : Option String
  blog : Option String
  twitter : Option String
  public_repos : Option Nat
  followers : Option Nat
deriving Repr, DecidableEq

/-- The empty dict `{}` returned by `fetch_user_details` on a non-200
response: every field absent. -/
def Profile.empty : Profile :=
  { name := none, company := none, email := none, bio := none,
    location := none, blog := none, twitter := none,
    public_repos := none, followers := none }

/-- A response to the user-profile request. -/
structure UserResp where
  status : Nat
  profile : Profile
deriving Repr, DecidableEq

/-- A response to the `/users/{username}/orgs` request: status plus the
list of `login` fields of the returned organizations. -/
structure OrgsResp where
  status : Nat
  orgs : List String
deriving Repr, DecidableEq

/-- One entry of a stargazer page.  The code tolerates two shapes:
`wrapped` is the `star+json` shape `{"user": {"login": …, "html_url": …}}`
(both keys read with mandatory access), `plain` is the plain user object
read with `.get` (either key may be absent); anything that is not a dict
is `invalid` and skipped. -/
inductive StarEntry where
  | wrapped (login : String) (htmlUrl : String)
  | plain (login : Option String) (htmlUrl : Option String)
  | invalid
deriving Repr, DecidableEq

/-- A response to a stargazer-page request: HTTP status, the page number
parsed out of the `Link` header's `rel="last"` entry when present, and the
entries of the JSON body. -/
structure PageResp where
  status : Nat
  lastPageLink : Option Nat
  entries : List StarEntry
deriving Repr, DecidableEq

/-- A `{username, repo, user_url}` record appended by `fetch_stargazers`. -/
structure StarEvent where
  username : String
  repo : String
  user_url : Option String
deriving Repr, DecidableEq

/-- The fields of an enriched stargazer dict that the dedup/score phase
reads: the star event's identity plus the enrichment the code attaches
(`company_clean`, `org_count`, and the spread-in `email`/`followers`
profile keys, absent when the profile fetch failed). -/
structure Enriched where
  username : String
  repo : String
  company_clean : String
  org_count : Nat
  email : Option String
  followers : Option Nat
deriving Repr, DecidableEq

/-- A deduplicated lead: the first-seen enriched record of a username,
extended with the `repos_starred` list and the computed `score`. -/
structure Lead where
  username : String
  repo : String
  company_clean : String
  org_count : Nat
  email : Option String
  followers : Option Nat
  repos_starred : List String
  score : Int
deriving Repr, DecidableEq

/-- The module-level repo list `REPOS`. -/
def REPOS : List String :=
  ["amplitude/Amplitude-JavaScript", "mixpanel/mixpanel-js", "segmentio/analytics.js"]

/-! ## Company-name cleaning (`clean_company_name`)

Python's `str` operations are modelled at the character-list level
(`String.data` / `String.mk`), which the Lean kernel can evaluate. -/

/-- Python `str.strip()`: drop whitespace from both ends. -/
def trimChars (l : List Char) : List Char :=
  ((l.dropWhile Char.isWhitespace).reverse.dropWhile Char.isWhitespace).reverse

/-- Python `company.strip()`. -/
def pyStrip (s : String) : String := String.mk (trimChars s.data)

/-- Python `company.endswith(suffix)`. -/
def pyEndsWith (s suf : String) : Bool := suf.data.isSuffixOf s.data

/-- Python `company.startswith("@")`, for a general leading string. -/
def pyStartsWith (s p : String) : Bool := p.data.isPrefixOf s.data

/-- Python `company[:-n]` for `n > 0`: drop the last `n` characters. -/
def pyDropRight (s : String) (n : Nat) : String :=
  String.mk (s.data.take (s.data.length - n))

/-- Python `company[1:]`: drop the first character. -/
def pyDropFirst (s : String) : String := String.mk (s.data.drop 1)

/-- Python `len(suffix)`. -/
def pyLength (s : String) : Nat := s.data.length

/-- The suffix list of `clean_company_name`, in source order. -/
def suffixList : List String :=
  [", Inc.", ", Inc", " Inc.", " Inc", " LLC", " Ltd", " Ltd."]

/-- One iteration of the suffix loop:
`if company.endswith(suffix): company = company[:-len(suffix)]`. -/
def removeSuffixStep (c : String) (suf : String) : String :=
  if pyEndsWith c suf then pyDropRight c (pyLength suf) else c

/-- Removal of the leading `"@"`: `if company.startswith("@"): company = company[1:]`. -/
def stripLeadAt (c : String) : String :=
  if pyStartsWith c "@" then pyDropFirst c else c

/-- Model of `clean_company_name(company)`.  The argument is `Option String` because
the company value comes from `data.get("company")`; `none` and `""` are both
falsy, so both return `""`.  Note the suffix loop has no `break`: every
suffix of `suffixList` is tried, in order, against the current (possibly
already shortened) string. -/
def clean_company_name : Option String → String
  | none => ""
  | some s =>
    if s = "" then ""
    else pyStrip (suffixList.foldl removeSuffixStep (stripLeadAt (pyStrip s)))

/-- The cleaning function as claim C3 words it ("applying at most one
removal per call, stopping at the first matching suffix"): only the first
suffix of the list that matches is removed.  Used solely to compare the
claim's description with the code. -/
def removeFirstSuffix (c : String) : List String → String
  | [] => c
  | suf :: rest =>
    if pyEndsWith c suf then pyDropRight c (pyLength suf) else removeFirstSuffix c rest

/-- Cleaning as described by claim C3 (stop at first matching suffix). -/
def clean_company_name_claimed : Option String → String
  | none => ""
  | some s =>
    if s = "" then ""
    else pyStrip (removeFirstSuffix (stripLeadAt (pyStrip s)) suffixList)

/-! ## Fetchers -/

/-- Model of `fetch_user_details(username)`, over a response oracle `net` giving the
response to the n-th GET the call issues.  A 403 first response causes
exactly one retry (after a 60s sleep, not modelled); any other non-200
final response yields the empty profile.  The second component is the
number of GET requests issued. -/
def fetch_user_details (net : Nat → UserResp) : Profile × Nat :=
  let r0 := net 0
  let r := if r0.status = 403 then net 1 else r0
  let n := if r0.status = 403 then 2 else 1
  if r.status = 200 then (r.profile, n) else (Profile.empty, n)

/-- Model of `fetch_user_orgs(username)`: a single GET, no retry of any kind; any
non-200 status (including 403) returns `[]`.  The second component is the
number of GET requests issued (always 1). -/
def fetch_user_orgs (net : Nat → OrgsResp) : List String × Nat :=
  let r := net 0
  if r.status = 200 then (r.orgs, 1) else ([], 1)

/-- The organization fetch as claim C4 describes it: a 403 triggers exactly
one fixed-delay retry before the response is accepted or treated as a
normal non-200 failure.  Used solely to compare the claim with the code. -/
def fetch_user_orgs_claimed (net : Nat → OrgsResp) : List String × Nat :=
  let r0 := net 0
  let r := if r0.status = 403 then net 1 else r0
  let n := if r0.status = 403 then 2 else 1
  if r.status = 200 then (r.orgs, n) else ([], n)

/-! ## Stargazer collection (`fetch_stargazers`) -/

/-- The quantity `pages_to_fetch = min(max_stargazers // per_page + 1, last_page, 5)`
with `per_page = 100`. -/
def pagesToFetch (maxStargazers lastPage : Nat) : Nat :=
  min (min (maxStargazers / 100 + 1) lastPage) 5

/-- The quantity `start_page = max(1, last_page - pages_to_fetch + 1)`. -/
def startPage (maxStargazers lastPage : Nat) : Nat :=
  max 1 (lastPage - pagesToFetch maxStargazers lastPage + 1)

/-- The loop range `range(start_page, last_page + 1)`. -/
def pageRange (maxStargazers lastPage : Nat) : List Nat :=
  List.range' (startPage maxStargazers lastPage)
    (lastPage + 1 - startPage maxStargazers lastPage)

/-- Extraction of one page entry into a star event, for a given repo.
Mirrors the `isinstance`/shape branch and the `if username:` truthiness
check (a missing or empty login is skipped). -/
def parseStarEntry (repo : String) : StarEntry → Option StarEvent
  | .wrapped login url => if login = "" then none else some ⟨login, repo, some url⟩
  | .plain login url =>
    match login with
    | some l => if l = "" then none else some ⟨l, repo, url⟩
    | none => none
  | .invalid => none

/-- All star events extracted from one page body. -/
def processPage (repo : String) (entries : List StarEntry) : List StarEvent :=
  entries.filterMap (parseStarEntry repo)

/-- The page loop of `fetch_stargazers`, over the list of pages still to
fetch and the index `k` of the next request.  A 403 response is retried
exactly once (consuming the next response); a final non-200 response skips
the page (`continue`).  Returns the collected events and the log of page
numbers requested (a page appears twice consecutively when its first
request got a 403). -/
def fetchLoop (net : Nat → PageResp) (repo : String) : List Nat → Nat → List StarEvent × List Nat
  | [], _ => ([], [])
  | p :: ps, k =>
    let r0 := net k
    let used := if r0.status = 403 then 2 else 1
    let r := if r0.status = 403 then net (k + 1) else r0
    let here := if r.status = 200 then processPage repo r.entries else []
    let rest := fetchLoop net repo ps (k + used)
    (here ++ rest.1, (if r0.status = 403 then [p, p] else [p]) ++ rest.2)

/-- Model of `fetch_stargazers(repo, max_stargazers)`.  Request 0 is the one-item
discovery request (any non-200 status, including 403, aborts with `[]` and
no retry); the page loop then starts at request index 1.  The returned
pair is the collected (truncated) events and the page-number log of the
loop's requests.  The truncation mirrors
`stargazers[-max_stargazers:] if len(stargazers) > max_stargazers else stargazers`,
including Python's `[-0:] = [0:]` behaviour for `max_stargazers = 0`. -/
def fetch_stargazers (net : Nat → PageResp) (repo : String) (maxStargazers : Nat) :
    List StarEvent × List Nat :=
  let disc := net 0
  if disc.status = 200 then
    let lastPage := disc.lastPageLink.getD 1
    let res := fetchLoop net repo (pageRange maxStargazers lastPage) 1
    let evs := res.1
    let recent :=
      if maxStargazers < evs.length then
        (if maxStargazers = 0 then evs else evs.drop (evs.length - maxStargazers))
      else evs
    (recent, res.2)
  else ([], [])

/-! ## Enrichment (`enrich_stargazers`) -/

/-- Model of `enrich_stargazers(stargazers)`: for each star event, fetch the profile
(oracle `unet username`) and the orgs (oracle `onet username`), clean the
company, and build the enriched record.  Never drops an item: a failed
profile fetch just yields absent fields. -/
def enrich_stargazers (unet : String → Nat → UserResp) (onet : String → Nat → OrgsResp)
    (stars : List StarEvent) : List Enriched :=
  stars.map (fun star =>
    let details := (fetch_user_details (unet star.username)).1
    let orgs := (fetch_user_orgs (onet star.username)).1
    { username := star.username, repo := star.repo,
      company_clean := clean_company_name details.company,
      org_count := orgs.length,
      email := details.email,
      followers := details.followers })

/-! ## Deduplication and scoring (`dedupe_and_score`) -/

/-- The lead record established by the first occurrence of a username:
the enriched record plus `repos_starred = [repo]` (score filled in later;
the dict has no score key yet, modelled as 0). -/
def mkLead (e : Enriched) : Lead :=
  { username := e.username, repo := e.repo, company_clean := e.company_clean,
    org_count := e.org_count, email := e.email, followers := e.followers,
    repos_starred := [e.repo], score := 0 }

/-- The update `if lead["repo"] not in existing["repos_starred"]: …append(lead["repo"])`
as a list operation. -/
def addDistinct (acc : List String) (r : String) : List String :=
  if r ∈ acc then acc else acc ++ [r]

/-- Appends the repo of a subsequent occurrence to an existing lead, if not
already present. -/
def addRepoIfNew (r : String) (l : Lead) : Lead :=
  { l with repos_starred := addDistinct l.repos_starred r }

/-- First lead of the accumulator with the given username (the dict lookup
`by_username[username]`; the accumulator, like a dict, holds at most one
lead per username). -/
def findLead (u : String) : List Lead → Option Lead
  | [] => none
  | l :: ls => if l.username = u then some l else findLead u ls

/-- First event of a list with the given username. -/
def findEvent (u : String) : List Enriched → Option Enriched
  | [] => none
  | e :: es => if e.username = u then some e else findEvent u es

/-- Updates the (unique) lead with the given username by `addRepoIfNew`. -/
def updateLead (u r : String) : List Lead → List Lead
  | [] => []
  | l :: ls => if l.username = u then addRepoIfNew r l :: ls else l :: updateLead u r ls

/-- One iteration of the dedup fold: a new username is appended to the dict
(insertion order preserved), a known one has the repo merged in. -/
def insertEvent (acc : List Lead) (e : Enriched) : List Lead :=
  match findLead e.username acc with
  | some _ => updateLead e.username e.repo acc
  | none => acc ++ [mkLead e]

/-- The dedup phase of `dedupe_and_score`: fold the enriched events into an
insertion-ordered dict keyed by username. -/
def dedupe (evs : List Enriched) : List Lead :=
  evs.foldl insertEvent []

/-- Truthiness of `lead.get("email")`: present and non-empty. -/
def emailTruthy : Option String → Bool
  | none => false
  | some s => !(s == "")

/-- The follower bonus: `+2 if followers > 100 elif followers > 10 then +1`. -/
def followersBonus (f : Nat) : Int :=
  if 100 < f then 2 else if 10 < f then 1 else 0

/-- The score computed for one merged lead, exactly the five `score +=`
statements of the code (with `lead.get("followers", 0)` as `getD 0`). -/
def scoreLead (l : Lead) : Int :=
  (if l.company_clean ≠ "" then 3 else 0)
    + (if 0 < l.org_count then 2 else 0)
    + (if emailTruthy l.email then 2 else 0)
    + ((l.repos_starred.length : Int) - 1) * 3
    + followersBonus (l.followers.getD 0)

/-- Assignment `lead["score"] = score` for one lead. -/
def setScore (l : Lead) : Lead :=
  { l with score := scoreLead l }

/-- The sort relation of `scored.sort(key=lambda x: x["score"], reverse=True)`:
`a` may come before `b` when `b.score ≤ a.score`. -/
def leadGE (a b : Lead) : Prop := b.score ≤ a.score

instance : DecidableRel leadGE := fun a b => inferInstanceAs (Decidable (b.score ≤ a.score))

instance : IsTotal Lead leadGE := ⟨fun a b => Int.le_total b.score a.score⟩

instance : IsTrans Lead leadGE := ⟨fun _ _ _ h1 h2 => le_trans h2 h1⟩

/-- Python's `list.sort` is a stable sort; with the descending-score key it
is the stable sort by `leadGE`, which insertion sort realises (a stable
sort by a total preorder is unique). -/
def sortLeads (l : List Lead) : List Lead :=
  List.insertionSort leadGE l

/-- Model of `dedupe_and_score(leads)`: dedupe, score every merged lead, sort by
score descending (stable). -/
def dedupe_and_score (evs : List Enriched) : List Lead :=
  sortLeads ((dedupe evs).map setScore)

/-! ## Delivery (`send_to_clay`, `save_local`, `main`) -/

/-- Observable actions of the delivery phase and of `main`. -/
inductive Event where
  | exitEarly
  | enrichmentDone (n : Nat)
  | saveLocal (leads : List Lead)
  | webhookSkipped
  | webhookPost (leads : List Lead)
  | webhookSuccess
  | webhookFailure (status : Nat)
deriving Repr, DecidableEq

/-- Truthiness of `CLAY_WEBHOOK_URL` (`if not CLAY_WEBHOOK_URL`): unset or
empty is falsy. -/
def urlTruthy : Option String → Bool
  | none => false
  | some s => !(s == "")

/-- Model of `send_to_clay(leads)`: skip (returning `False`) when no URL is
configured; otherwise POST the batch and succeed exactly on status
200/201/202, anything else being reported as a failure.  The event list
records what the call did, in order. -/
def send_to_clay (url : Option String) (postStatus : Nat) (leads : List Lead) :
    List Event × Bool :=
  if urlTruthy url then
    if postStatus = 200 ∨ postStatus = 201 ∨ postStatus = 202 then
      ([Event.webhookPost leads, Event.webhookSuccess], true)
    else
      ([Event.webhookPost leads, Event.webhookFailure postStatus], false)
  else ([Event.webhookSkipped], false)

/-- The collection loop of `main`: `fetch_stargazers(repo, 200)` for each
repo of `REPOS`, extended into one list. -/
def collectAll (net : String → Nat → PageResp) : List StarEvent :=
  (REPOS.map (fun repo => (fetch_stargazers (net repo) repo 200).1)).flatten

/-- The pipeline of `main` after configuration, as the ordered list of its
observable actions: collect; exit early when nothing was collected;
otherwise enrich, dedupe-and-score, write the local snapshot, then attempt
webhook delivery. -/
def mainRun (net : String → Nat → PageResp) (unet : String → Nat → UserResp)
    (onet : String → Nat → OrgsResp) (url : Option String) (postStatus : Nat) :
    List Event :=
  let allStars := collectAll net
  if allStars.isEmpty then [Event.exitEarly]
  else
    let enr := enrich_stargazers unet onet allStars
    let leads := dedupe_and_score enr
    Event.enrichmentDone enr.length :: Event.saveLocal leads ::
      (send_to_clay url postStatus leads).1

/-! ## Derived notions used by the claims -/

/-- The usernames of a lead list, in order. -/
def usernames (ls : List Lead) : List String := ls.map (fun l => l.username)

/-- The repos of a given username's events, in input order (with
duplicates). -/
def reposOf (u : String) (evs : List Enriched) : List String :=
  (evs.filter (fun e => e.username = u)).map (fun e => e.repo)

/-- The distinct elements of a list, in order of first appearance. -/
def distinctFirst (l : List String) : List String := l.foldl addDistinct []

/-- The score formula exactly as claim C1 words it: 3 for a non-empty
cleaned company, 2 for a positive org count, 2 for a present email, 3 times
(distinct repos starred minus 1), and the follower tier. -/
def claimScore (l : Lead) : Int :=
  (if l.company_clean ≠ "" then 3 else 0)
    + (if 0 < l.org_count then 2 else 0)
    + (if emailTruthy l.email then 2 else 0)
    + 3 * ((l.repos_starred.length : Int) - 1)
    + (if 100 < l.followers.getD 0 then 2
       else if 10 < l.followers.getD 0 then 1 else 0)

/-- The one-suffix-at-a-time rendering of the suffix loop (each listed
suffix tried exactly once, in order, against the current string). -/
def removeSuffixesRec : List String → String → String
  | [], c => c
  | suf :: rest, c => removeSuffixesRec rest (removeSuffixStep c suf)

/-- The score as a function of the five signals it reads (definitionally
equal to `scoreLead` on the corresponding fields); used to state
per-signal monotonicity. -/
def scoreOf (company : String) (orgs : Nat) (email : Option String)
    (repos : List String) (followers : Option Nat) : Int :=
  (if company ≠ "" then 3 else 0)
    + (if 0 < orgs then 2 else 0)
    + (if emailTruthy email then 2 else 0)
    + ((repos.length : Int) - 1) * 3
    + followersBonus (followers.getD 0)

/-! ## Concrete inputs used by witnesses and counterexamples -/

/-- Enriched star event: `octocat` of Acme starring the Amplitude repo. -/
def evA : Enriched :=
  { username := "octocat", repo := "amplitude/Amplitude-JavaScript",
    company_clean := "Acme", org_count := 1,
    email := some "octocat@acme.com", followers := some 150 }

/-- The same user's star event on the Mixpanel repo. -/
def evB : Enriched := { evA with repo := "mixpanel/mixpanel-js" }

/-- The single lead `dedupe_and_score [evA, evB]` produces. -/
def leadAB : Lead :=
  { username := "octocat", repo := "amplitude/Amplitude-JavaScript",
    company_clean := "Acme", org_count := 1,
    email := some "octocat@acme.com", followers := some 150,
    repos_starred := ["amplitude/Amplitude-JavaScript", "mixpanel/mixpanel-js"],
    score := 12 }

/-- An orgs-endpoint oracle whose first response is a 403 rate limit and
whose second response would succeed with one organization. -/
def orgNet403 : Nat → OrgsResp :=
  fun n => if n = 0 then { status := 403, orgs := [] }
           else { status := 200, orgs := ["acme"] }

/-- A profile-endpoint oracle that always answers 500 (the body shows the
profile payload of a failed response is discarded). -/
def userNet500 : Nat → UserResp :=
  fun _ => { status := 500,
             profile := { name := some "Octo", company := some "Acme",
                          email := some "octocat@acme.com", bio := none,
                          location := none, blog := none, twitter := none,
                          public_repos := some 5, followers := some 42 } }

/-- A profile-endpoint oracle that always answers 200 with an empty body. -/
def userNetOk : String → Nat → UserResp :=
  fun _ _ => { status := 200, profile := Profile.empty }

/-- A profile-endpoint oracle whose first response is a 403 rate limit and
whose second response succeeds. -/
def userNet403 : Nat → UserResp :=
  fun n => if n = 0 then { status := 403, profile := Profile.empty }
           else { status := 200,
                  profile := { Profile.empty with followers := some 7 } }

/-- An orgs-endpoint oracle that always answers 200 with no orgs. -/
def orgsNetOk : String → Nat → OrgsResp :=
  fun _ _ => { status := 200, orgs := [] }

/-- A stargazer-endpoint oracle whose discovery response reports last page
3 and whose page responses are empty 200s. -/
def pageNet3 : Nat → PageResp :=
  fun _ => { status := 200, lastPageLink := some 3, entries := [] }

/-- A stargazer-endpoint oracle (for every repo) that always answers 404:
collection yields nothing. -/
def pageNetFail : String → Nat → PageResp :=
  fun _ _ => { status := 404, lastPageLink := none, entries := [] }

/-- A stargazer-endpoint oracle (for every repo) with a single page
containing one stargazer. -/
def pageNetOne : String → Nat → PageResp :=
  fun _ k =>
    if k = 0 then { status := 200, lastPageLink := none, entries := [] }
    else { status := 200, lastPageLink := none,
           entries := [StarEntry.plain (some "octocat") none] }

/-! ## Small projection lemmas -/

@[simp] theorem addRepoIfNew_username (r : String) (l : Lead) :
    (addRepoIfNew r l).username = l.username := rfl

@[simp] theorem addRepoIfNew_repos (r : String) (l : Lead) :
    (addRepoIfNew r l).repos_starred = addDistinct l.repos_starred r := rfl

@[simp] theorem setScore_username (l : Lead) : (setScore l).username = l.username := rfl

@[simp] theorem setScore_repos (l : Lead) : (setScore l).repos_starred = l.repos_starred := rfl

@[simp] theorem setScore_score (l : Lead) : (setScore l).score = scoreLead l := rfl

@[simp] theorem mkLead_username (e : Enriched) : (mkLead e).username = e.username := rfl

@[simp] theorem mkLead_repos (e : Enriched) : (mkLead e).repos_starred = [e.repo] := rfl

/-! ## Lemmas on `addDistinct` and `distinctFirst` -/

theorem mem_foldl_addDistinct (x : String) (l acc : List String) :
    x ∈ l.foldl addDistinct acc ↔ x ∈ acc ∨ x ∈ l := by
  induction l generalizing acc with
  | nil => simp
  | cons r l ih =>
    rw [List.foldl_cons, ih]
    unfold addDistinct
    split_ifs with h
    · constructor
      · rintro (hx | hx)
        · exact Or.inl hx
        · exact Or.inr (List.mem_cons_of_mem _ hx)
      · rintro (hx | hx)
        · exact Or.inl hx
        · rcases List.mem_cons.mp hx with rfl | hx
          · exact Or.inl h
          · exact Or.inr hx
    · simp only [List.mem_append, List.mem_singleton, List.mem_cons]
      tauto

theorem nodup_foldl_addDistinct (l : List String) :
    ∀ acc : List String, acc.Nodup → (l.foldl addDistinct acc).Nodup := by
  induction l with
  | nil => intro acc h; exact h
  | cons r l ih =>
    intro acc h
    rw [List.foldl_cons]
    apply ih
    unfold addDistinct
    split_ifs with hr
    · exact h
    · have : (acc ++ [r]).Perm (r :: acc) := List.perm_append_singleton r acc
      rw [this.nodup_iff]
      exact List.nodup_cons.mpr ⟨hr, h⟩

theorem mem_distinctFirst (x : String) (l : List String) :
    x ∈ distinctFirst l ↔ x ∈ l := by
  simp [distinctFirst, mem_foldl_addDistinct]

theorem nodup_distinctFirst (l : List String) : (distinctFirst l).Nodup :=
  nodup_foldl_addDistinct l [] List.nodup_nil

/-! ## Lemmas on `findLead`, `findEvent`, `updateLead`, `insertEvent` -/

theorem findLead_eq_none {u : String} : ∀ ls : List Lead,
    findLead u ls = none ↔ u ∉ usernames ls
  | [] => by simp [findLead, usernames]
  | l :: ls => by
    rw [findLead]
    split_ifs with h
    · simp [usernames, h]
    · rw [findLead_eq_none ls]
      simp only [usernames, List.map_cons, List.mem_cons]
      constructor
      · rintro hn (hh | hh)
        · exact h hh.symm
        · exact hn (by simpa [usernames] using hh)
      · intro hn hh
        exact hn (Or.inr (by simpa [usernames] using hh))

theorem findEvent_eq_none {u : String} : ∀ es : List Enriched,
    findEvent u es = none ↔ u ∉ es.map (fun e => e.username)
  | [] => by simp [findEvent]
  | e :: es => by
    rw [findEvent]
    split_ifs with h
    · simp [h]
    · rw [findEvent_eq_none es]
      simp only [List.map_cons, List.mem_cons]
      constructor
      · rintro hn (hh | hh)
        · exact h hh.symm
        · exact hn hh
      · intro hn hh
        exact hn (Or.inr hh)

theorem findLead_username {u : String} : ∀ {ls : List Lead} {l : Lead},
    findLead u ls = some l → l.username = u
  | [], _, h => by cases h
  | a :: ls, l, h => by
    rw [findLead] at h
    split_ifs at h with ha
    · cases h; exact ha
    · exact findLead_username h

theorem findEvent_username {u : String} : ∀ {es : List Enriched} {e : Enriched},
    findEvent u es = some e → e.username = u
  | [], _, h => by cases h
  | a :: es, e, h => by
    rw [findEvent] at h
    split_ifs at h with ha
    · cases h; exact ha
    · exact findEvent_username h

theorem findLead_updateLead_self (u r : String) : ∀ ls : List Lead,
    findLead u (updateLead u r ls) = (findLead u ls).map (addRepoIfNew r)
  | [] => rfl
  | l :: ls => by
    by_cases h : l.username = u
    · rw [updateLead, if_pos h, findLead, if_pos (by simpa using h),
        findLead, if_pos h, Option.map_some']
    · rw [updateLead, if_neg h, findLead, if_neg h, findLead, if_neg h,
        findLead_updateLead_self u r ls]

theorem findLead_updateLead_ne {v u : String} (hne : v ≠ u) (r : String) :
    ∀ ls : List Lead, findLead v (updateLead u r ls) = findLead v ls
  | [] => rfl
  | l :: ls => by
    by_cases h : l.username = u
    · have hv : ¬ l.username = v := fun hh => hne (hh ▸ h)
      rw [updateLead, if_pos h, findLead, if_neg (by simpa using hv),
        findLead, if_neg hv]
    · rw [updateLead, if_neg h, findLead, findLead,
        findLead_updateLead_ne hne r ls]

theorem usernames_updateLead (u r : String) : ∀ ls : List Lead,
    usernames (updateLead u r ls) = usernames ls
  | [] => rfl
  | l :: ls => by
    by_cases h : l.username = u
    · rw [updateLead, if_pos h]
      simp [usernames]
    · rw [updateLead, if_neg h]
      simp only [usernames, List.map_cons]
      exact congrArg (List.cons l.username) (usernames_updateLead u r ls)

theorem findLead_append_of_none {u : String} {ls : List Lead}
    (h : findLead u ls = none) (l2 : List Lead) :
    findLead u (ls ++ l2) = findLead u l2 := by
  induction ls with
  | nil => rfl
  | cons a ls ih =>
    rw [findLead] at h
    split_ifs at h with ha
    rw [List.cons_append, findLead, if_neg ha]
    exact ih h

theorem findLead_append_of_some {u : String} {ls : List Lead} {l : Lead}
    (h : findLead u ls = some l) (l2 : List Lead) :
    findLead u (ls ++ l2) = some l := by
  induction ls with
  | nil => cases h
  | cons a ls ih =>
    rw [findLead] at h
    split_ifs at h with ha
    · rw [List.cons_append, findLead, if_pos ha]; exact h
    · rw [List.cons_append, findLead, if_neg ha]
      exact ih h

theorem findLead_insertEvent_self (acc : List Lead) (e : Enriched) :
    findLead e.username (insertEvent acc e) =
      match findLead e.username acc with
      | some l => some (addRepoIfNew e.repo l)
      | none => some (mkLead e) := by
  unfold insertEvent
  cases h : findLead e.username acc with
  | some l =>
    rw [findLead_updateLead_self, h, Option.map_some']
  | none =>
    rw [findLead_append_of_none h, findLead, if_pos (mkLead_username e)]

theorem findLead_insertEvent_ne {v : String} {e : Enriched}
    (hne : v ≠ e.username) (acc : List Lead) :
    findLead v (insertEvent acc e) = findLead v acc := by
  unfold insertEvent
  cases h : findLead e.username acc with
  | some l => exact findLead_updateLead_ne hne e.repo acc
  | none =>
    cases hv : findLead v acc with
    | some l => rw [findLead_append_of_some hv]
    | none =>
      rw [findLead_append_of_none hv, findLead, if_neg, findLead]
      simpa using fun hh => hne hh.symm

/-! ## Characterization of the dedup fold -/

theorem reposOf_cons_self {e : Enriched} {u : String} (h : e.username = u)
    (es : List Enriched) : reposOf u (e :: es) = e.repo :: reposOf u es := by
  simp [reposOf, List.filter_cons, h]

theorem reposOf_cons_ne {e : Enriched} {u : String} (h : ¬ e.username = u)
    (es : List Enriched) : reposOf u (e :: es) = reposOf u es := by
  simp [reposOf, List.filter_cons, h]

theorem dedupe_go_of_some (u : String) :
    ∀ (es : List Enriched) (acc : List Lead) (l : Lead), findLead u acc = some l →
      findLead u (es.foldl insertEvent acc) =
        some { l with repos_starred := (reposOf u es).foldl addDistinct l.repos_starred } := by
  intro es
  induction es with
  | nil =>
    intro acc l h
    simp only [List.foldl_nil, reposOf, List.filter_nil, List.map_nil]
    exact h
  | cons e es ih =>
    intro acc l h
    rw [List.foldl_cons]
    by_cases hu : e.username = u
    · subst hu
      have h1 : findLead e.username (insertEvent acc e) = some (addRepoIfNew e.repo l) := by
        rw [findLead_insertEvent_self, h]
      rw [ih (insertEvent acc e) (addRepoIfNew e.repo l) h1]
      rw [reposOf_cons_self rfl, List.foldl_cons]
      rfl
    · have h1 : findLead u (insertEvent acc e) = some l := by
        rw [findLead_insertEvent_ne (fun hh => hu hh.symm) acc]; exact h
      rw [ih (insertEvent acc e) l h1, reposOf_cons_ne hu]

theorem dedupe_go_of_none (u : String) :
    ∀ (es : List Enriched) (acc : List Lead), findLead u acc = none →
      findLead u (es.foldl insertEvent acc) =
        (findEvent u es).map
          (fun e => { mkLead e with repos_starred := distinctFirst (reposOf u es) }) := by
  intro es
  induction es with
  | nil =>
    intro acc h
    simpa [findEvent] using h
  | cons e es ih =>
    intro acc h
    rw [List.foldl_cons]
    by_cases hu : e.username = u
    · subst hu
      have h1 : findLead e.username (insertEvent acc e) = some (mkLead e) := by
        rw [findLead_insertEvent_self, h]
      rw [dedupe_go_of_some e.username es (insertEvent acc e) (mkLead e) h1]
      rw [findEvent, if_pos rfl, Option.map_some']
      rw [distinctFirst, reposOf_cons_self rfl, List.foldl_cons]
      rfl
    · have h1 : findLead u (insertEvent acc e) = none := by
        rw [findLead_insertEvent_ne (fun hh => hu hh.symm) acc]; exact h
      rw [ih (insertEvent acc e) h1, findEvent, if_neg hu, reposOf_cons_ne hu]

/-- The central characterization of the dedup fold: looking up a username
in `dedupe evs` finds exactly the lead built from the username's first
event, whose `repos_starred` is the first-appearance deduplication of all
of that username's repos. -/
theorem findLead_dedupe (u : String) (evs : List Enriched) :
    findLead u (dedupe evs) =
      (findEvent u evs).map
        (fun e => { mkLead e with repos_starred := distinctFirst (reposOf u evs) }) :=
  dedupe_go_of_none u evs [] rfl

theorem usernames_nodup_insertEvent (acc : List Lead) (e : Enriched)
    (h : (usernames acc).Nodup) : (usernames (insertEvent acc e)).Nodup := by
  unfold insertEvent
  cases hf : findLead e.username acc with
  | some l => rw [usernames_updateLead]; exact h
  | none =>
    have hnot : e.username ∉ usernames acc := (findLead_eq_none acc).mp hf
    have hperm : (usernames (acc ++ [mkLead e])).Perm (usernames (mkLead e :: acc)) := by
      unfold usernames
      rw [List.map_append]
      exact List.perm_append_singleton _ _
    rw [hperm.nodup_iff]
    unfold usernames
    rw [List.map_cons]
    exact List.nodup_cons.mpr ⟨by simpa [usernames] using hnot, h⟩

theorem usernames_nodup_dedupe_go :
    ∀ (es : List Enriched) (acc : List Lead), (usernames acc).Nodup →
      (usernames (es.foldl insertEvent acc)).Nodup := by
  intro es
  induction es with
  | nil => intro acc h; exact h
  | cons e es ih =>
    intro acc h
    rw [List.foldl_cons]
    exact ih _ (usernames_nodup_insertEvent acc e h)

theorem usernames_nodup_dedupe (evs : List Enriched) :
    (usernames (dedupe evs)).Nodup :=
  usernames_nodup_dedupe_go evs [] (by simp [usernames])

theorem findLead_of_mem {ls : List Lead} (hnd : (usernames ls).Nodup)
    {l : Lead} (hl : l ∈ ls) : findLead l.username ls = some l := by
  induction ls with
  | nil => cases hl
  | cons a ls ih =>
    have hnd2 := List.nodup_cons.mp (show (a.username :: usernames ls).Nodup from hnd)
    rcases List.mem_cons.mp hl with rfl | hl'
    · rw [findLead, if_pos rfl]
    · by_cases h : a.username = l.username
      · exact absurd (h ▸ List.mem_map_of_mem (fun x => x.username) hl') hnd2.1
      · rw [findLead, if_neg h]
        exact ih hnd2.2 hl'

theorem filter_username_length {u : String} : ∀ {ls : List Lead},
    (usernames ls).Nodup →
      (ls.filter (fun l => l.username == u)).length
        = if u ∈ usernames ls then 1 else 0 := by
  intro ls
  induction ls with
  | nil => simp [usernames]
  | cons a ls ih =>
    intro hnd
    have hnd2 := List.nodup_cons.mp (show (a.username :: usernames ls).Nodup from hnd)
    have htail := ih hnd2.2
    by_cases h : a.username = u
    · subst h
      rw [List.filter_cons_of_pos (by simp), List.length_cons, htail,
        if_neg hnd2.1, if_pos (show a.username ∈ usernames (a :: ls) from
          List.mem_cons.mpr (Or.inl rfl))]
    · rw [List.filter_cons_of_neg (by simp [h]), htail]
      by_cases hmem : u ∈ usernames ls
      · rw [if_pos hmem, if_pos (show u ∈ usernames (a :: ls) from
          List.mem_cons.mpr (Or.inr hmem))]
      · have hnot : u ∉ usernames (a :: ls) := by
          intro hh
          rcases List.mem_cons.mp (show u ∈ a.username :: usernames ls from hh)
            with hh2 | hh2
          · exact h hh2.symm
          · exact hmem hh2
        rw [if_neg hmem, if_neg hnot]

/-! ## Lemmas on the stable sort -/

theorem filter_score_orderedInsert (s : Int) (x : Lead) :
    ∀ l : List Lead,
      (List.orderedInsert leadGE x l).filter (fun a => a.score == s)
        = (x :: l).filter (fun a => a.score == s) := by
  intro l
  induction l with
  | nil => rfl
  | cons b l ih =>
    rw [List.orderedInsert]
    split_ifs with hle
    · rfl
    · have hlt : x.score < b.score := by
        simp only [leadGE, not_le] at hle
        exact hle
      by_cases hb : b.score = s <;> by_cases hx : x.score = s
      · exfalso; omega
      all_goals simp [List.filter_cons, ih, hb, hx]

theorem filter_score_sortLeads (s : Int) :
    ∀ l : List Lead,
      (sortLeads l).filter (fun a => a.score == s)
        = l.filter (fun a => a.score == s) := by
  intro l
  induction l with
  | nil => rfl
  | cons x l ih =>
    show (List.orderedInsert leadGE x (List.insertionSort leadGE l)).filter
        (fun a => a.score == s) = _
    rw [filter_score_orderedInsert]
    simp only [List.filter_cons]
    rw [show (List.insertionSort leadGE l).filter (fun a => a.score == s)
        = l.filter (fun a => a.score == s) from ih]

theorem sortLeads_perm (l : List Lead) : (sortLeads l).Perm l :=
  List.perm_insertionSort leadGE l

/-! ## Lemmas on the score -/

theorem scoreLead_eq_claimScore (l : Lead) : scoreLead l = claimScore l := by
  unfold scoreLead claimScore followersBonus
  split_ifs <;> ring

theorem claimScore_setScore (l : Lead) : claimScore (setScore l) = claimScore l := rfl

theorem scoreOf_mono_followers (c : String) (o : Nat) (em : Option String)
    (rs : List String) {a b : Nat} (h : a ≤ b) :
    scoreOf c o em rs (some a) ≤ scoreOf c o em rs (some b) := by
  unfold scoreOf followersBonus
  simp only [Option.getD_some]
  split_ifs <;> omega

theorem scoreOf_mono_orgs (c : String) (em : Option String) (rs : List String)
    (f : Option Nat) {n m : Nat} (h : n ≤ m) :
    scoreOf c n em rs f ≤ scoreOf c m em rs f := by
  unfold scoreOf
  generalize followersBonus (f.getD 0) = fb
  split_ifs <;> omega

theorem scoreOf_mono_email (c : String) (o : Nat) (rs : List String)
    (f : Option Nat) (e : String) :
    scoreOf c o none rs f ≤ scoreOf c o (some e) rs f := by
  unfold scoreOf
  rw [show emailTruthy none = false from rfl, if_neg Bool.false_ne_true]
  generalize followersBonus (f.getD 0) = fb
  split_ifs <;> omega

theorem scoreOf_mono_company (o : Nat) (em : Option String) (rs : List String)
    (f : Option Nat) (c : String) :
    scoreOf "" o em rs f ≤ scoreOf c o em rs f := by
  unfold scoreOf
  rw [if_neg (show ¬ ("" : String) ≠ "" by simp)]
  generalize followersBonus (f.getD 0) = fb
  split_ifs <;> omega

theorem scoreOf_mono_repos (c : String) (o : Nat) (em : Option String)
    (f : Option Nat) (rs : List String) (r : String) :
    scoreOf c o em rs f ≤ scoreOf c o em (rs ++ [r]) f := by
  unfold scoreOf
  generalize followersBonus (f.getD 0) = fb
  simp only [List.length_append, List.length_singleton]
  split_ifs <;> push_cast <;> omega

/-- Every lead of `dedupe_and_score evs` is the scored version of a lead
of the dedup fold. -/
theorem mem_dedupe_and_score {evs : List Enriched} {l : Lead}
    (h : l ∈ dedupe_and_score evs) : ∃ l0 ∈ dedupe evs, l = setScore l0 := by
  unfold dedupe_and_score at h
  have h2 := (sortLeads_perm _).mem_iff.mp h
  rcases List.mem_map.mp h2 with ⟨l0, hl0, rfl⟩
  exact ⟨l0, hl0, rfl⟩

/-- Membership transfer for usernames between input events and the dedup
output. -/
theorem mem_usernames_dedupe (u : String) (evs : List Enriched) :
    u ∈ usernames (dedupe evs) ↔ u ∈ evs.map (fun e => e.username) := by
  rw [← not_iff_not, ← findLead_eq_none (dedupe evs), ← findEvent_eq_none evs,
    findLead_dedupe]
  cases findEvent u evs <;> simp

/-! ## Claim theorems -/

/-- C1: every lead produced by `dedupe_and_score` has a score equal to the
sum of 3 if the cleaned company name is non-empty, 2 if the organization
count is positive, 2 if an email is present, 3 times (distinct repos
starred minus 1), and 2/1/0 by the follower tier (>100 / >10 / otherwise);
in particular the run on `[evA, evB]` (non-empty company, one org, an
email, two repos starred, 150 followers) yields exactly one lead, scored
exactly 12. -/
theorem C1_score_formula :
    (∀ (evs : List Enriched) (l : Lead),
        l ∈ dedupe_and_score evs → l.score = claimScore l)
    ∧ (dedupe_and_score [evA, evB]).map (fun l => l.score) = [12] := by
  constructor
  · intro evs l hl
    rcases mem_dedupe_and_score hl with ⟨l0, _, rfl⟩
    rw [setScore_score, claimScore_setScore]
    exact scoreLead_eq_claimScore l0
  · rfl

/-- Witness for C1: the concrete two-event run contains `leadAB`, whose
score satisfies the claimed formula. -/
theorem C1_score_formula_witness :
    leadAB ∈ dedupe_and_score [evA, evB] ∧ leadAB.score = claimScore leadAB :=
  ⟨by decide, C1_score_formula.1 [evA, evB] leadAB (by decide)⟩

/-- C2: `dedupe_and_score` outputs exactly one lead per distinct input
username, and each output lead's `repos_starred` is the list of the
distinct repos of that username's events, duplicate-free, in order of
first appearance in the input. -/
theorem C2_dedup_invariant :
    ∀ (evs : List Enriched) (u : String),
      ((dedupe_and_score evs).filter (fun l => l.username == u)).length
          = (if u ∈ evs.map (fun e => e.username) then 1 else 0)
      ∧ ∀ l ∈ dedupe_and_score evs,
          l.repos_starred = distinctFirst (reposOf l.username evs)
          ∧ l.repos_starred.Nodup
          ∧ (∀ r, r ∈ l.repos_starred ↔ r ∈ reposOf l.username evs) := by
  intro evs u
  constructor
  · have hperm : ((dedupe_and_score evs).filter (fun l => l.username == u)).Perm
        ((((dedupe evs).map setScore)).filter (fun l => l.username == u)) :=
      (sortLeads_perm ((dedupe evs).map setScore)).filter _
    rw [hperm.length_eq]
    rw [show ((dedupe evs).map setScore).filter (fun l => l.username == u)
        = ((dedupe evs).filter (fun l => l.username == u)).map setScore from
        List.filter_map setScore (dedupe evs)]
    rw [List.length_map]
    rw [filter_username_length (usernames_nodup_dedupe evs)]
    by_cases hmem : u ∈ evs.map (fun e => e.username)
    · rw [if_pos ((mem_usernames_dedupe u evs).mpr hmem), if_pos hmem]
    · rw [if_neg (fun hh => hmem ((mem_usernames_dedupe u evs).mp hh)), if_neg hmem]
  · intro l hl
    rcases mem_dedupe_and_score hl with ⟨l0, hl0, rfl⟩
    have hfind := findLead_of_mem (usernames_nodup_dedupe evs) hl0
    rw [findLead_dedupe] at hfind
    cases hev : findEvent l0.username evs with
    | none => rw [hev] at hfind; cases hfind
    | some e =>
      rw [hev, Option.map_some'] at hfind
      have hrepos : l0.repos_starred = distinctFirst (reposOf l0.username evs) := by
        have := congrArg (fun o => (o.getD l0).repos_starred) hfind
        simpa using this.symm
      refine ⟨?_, ?_, ?_⟩
      · rw [setScore_repos, setScore_username]
        exact hrepos
      · rw [setScore_repos, hrepos]
        exact nodup_distinctFirst _
      · intro r
        rw [setScore_repos, setScore_username, hrepos]
        exact mem_distinctFirst r _

/-- Witness for C2 at the concrete two-event run. -/
theorem C2_dedup_invariant_witness :
    leadAB.repos_starred = distinctFirst (reposOf leadAB.username [evA, evB])
    ∧ leadAB.repos_starred.Nodup :=
  ⟨((C2_dedup_invariant [evA, evB] "octocat").2 leadAB (by decide)).1,
    ((C2_dedup_invariant [evA, evB] "octocat").2 leadAB (by decide)).2.1⟩

/-- C6: the final list of `dedupe_and_score` is sorted by non-increasing
score, and filtering it by any fixed score value yields exactly the
corresponding sublist of the scored dedup-fold output (stability: leads
with equal scores keep the fold's relative order). -/
theorem C6_sorted_stable :
    ∀ evs : List Enriched,
      List.Sorted (fun a b : Lead => b.score ≤ a.score) (dedupe_and_score evs)
      ∧ ∀ s : Int,
          (dedupe_and_score evs).filter (fun l => l.score == s)
            = ((dedupe evs).map setScore).filter (fun l => l.score == s) := by
  intro evs
  constructor
  · exact List.sorted_insertionSort leadGE ((dedupe evs).map setScore)
  · intro s
    exact filter_score_sortLeads s ((dedupe evs).map setScore)

/-- C9: the score assigned by `dedupe_and_score` (cf. C1) is monotone
non-decreasing in each signal separately: raising followers, raising the
org count, adding an email, making the company non-empty, or appending a
repo never lowers the score, the other fields held fixed. -/
theorem C9_score_monotone :
    ∀ l : Lead,
      (∀ a b : Nat, a ≤ b →
          scoreLead { l with followers := some a }
            ≤ scoreLead { l with followers := some b })
      ∧ (∀ n m : Nat, n ≤ m →
          scoreLead { l with org_count := n } ≤ scoreLead { l with org_count := m })
      ∧ (∀ e : String,
          scoreLead { l with email := none } ≤ scoreLead { l with email := some e })
      ∧ (∀ c : String,
          scoreLead { l with company_clean := "" }
            ≤ scoreLead { l with company_clean := c })
      ∧ (∀ r : String,
          scoreLead l ≤ scoreLead { l with repos_starred := l.repos_starred ++ [r] }) := by
  intro l
  refine ⟨?_, ?_, ?_, ?_, ?_⟩
  · intro a b h
    exact scoreOf_mono_followers l.company_clean l.org_count l.email l.repos_starred h
  · intro n m h
    exact scoreOf_mono_orgs l.company_clean l.email l.repos_starred l.followers h
  · intro e
    exact scoreOf_mono_email l.company_clean l.org_count l.repos_starred l.followers e
  · intro c
    exact scoreOf_mono_company l.org_count l.email l.repos_starred l.followers c
  · intro r
    exact scoreOf_mono_repos l.company_clean l.org_count l.email l.followers
      l.repos_starred r

/-- Witness for C9: concrete monotonicity instance in the follower count. -/
theorem C9_score_monotone_witness :
    scoreLead { leadAB with followers := some 5 }
      ≤ scoreLead { leadAB with followers := some 500 } :=
  (C9_score_monotone leadAB).1 5 500 (by decide)

/-! ## C3: company cleaning -/

theorem foldl_removeSuffixStep_eq_rec :
    ∀ (sufs : List String) (c : String),
      sufs.foldl removeSuffixStep c = removeSuffixesRec sufs c
  | [], _ => rfl
  | suf :: rest, c => by
    rw [List.foldl_cons, removeSuffixesRec, foldl_removeSuffixStep_eq_rec rest]

/-- C3 counterexample: on `"Acme Ltd LLC"` the suffix loop (which has no
break) removes `" LLC"` and then also `" Ltd"`, while the claimed
stop-at-first-match behaviour removes only `" LLC"`. -/
theorem C3_counterexample :
    clean_company_name (some "Acme Ltd LLC") = "Acme"
    ∧ clean_company_name_claimed (some "Acme Ltd LLC") = "Acme Ltd"
    ∧ clean_company_name (some "Acme Ltd LLC")
        ≠ clean_company_name_claimed (some "Acme Ltd LLC") := by
  refine ⟨by decide, by decide, by decide⟩

/-- C3 amended: `clean_company_name` strips surrounding whitespace and a
leading "@", then walks the suffix list in the listed order removing every
suffix that matches the current (possibly already shortened) string — at
most one removal per listed suffix, but possibly several per call — and
finally strips whitespace again; in particular `"@Acme, Inc."` cleans to
`"Acme"` (and `"Acme Ltd LLC"` to `"Acme"`, two removals). -/
theorem C3_amended :
    clean_company_name (some "@Acme, Inc.") = "Acme"
    ∧ clean_company_name (some "Acme Ltd LLC") = "Acme"
    ∧ ∀ s : String, s ≠ "" →
        clean_company_name (some s)
          = pyStrip (removeSuffixesRec suffixList (stripLeadAt (pyStrip s))) := by
  refine ⟨by decide, by decide, ?_⟩
  intro s hs
  simp only [clean_company_name, if_neg hs, foldl_removeSuffixStep_eq_rec]

/-- Witness for C3 amended at a concrete company string. -/
theorem C3_amended_witness :
    clean_company_name (some " Initech, Inc.")
      = pyStrip (removeSuffixesRec suffixList (stripLeadAt (pyStrip " Initech, Inc."))) :=
  C3_amended.2.2 " Initech, Inc." (by decide)

/-! ## C4: 403 handling -/

/-- C4 counterexample: on a first-response 403, `fetch_user_orgs` issues no
retry and returns the empty list after a single request, while the claimed
behaviour would retry once and succeed with the second response. -/
theorem C4_counterexample :
    fetch_user_orgs orgNet403 = ([], 1)
    ∧ fetch_user_orgs_claimed orgNet403 = (["acme"], 2)
    ∧ fetch_user_orgs orgNet403 ≠ fetch_user_orgs_claimed orgNet403 := by
  refine ⟨by decide, by decide, by decide⟩

/-- C4 amended: the stargazer page fetch and the user-profile fetch retry
exactly once after a 403 (the second response then being accepted or
treated as a normal non-200 failure), while the organization-list fetch
and the initial page-discovery request never retry: any non-200 response,
403 included, immediately yields the empty result after a single
request. -/
theorem C4_amended :
    (∀ (net : Nat → PageResp) (repo : String) (p : Nat) (ps : List Nat) (k : Nat),
        (net k).status = 403 →
        fetchLoop net repo (p :: ps) k =
          ((if (net (k + 1)).status = 200
              then processPage repo (net (k + 1)).entries else [])
            ++ (fetchLoop net repo ps (k + 2)).1,
            p :: p :: (fetchLoop net repo ps (k + 2)).2))
    ∧ (∀ net : Nat → UserResp, (net 0).status = 403 →
        fetch_user_details net =
          (if (net 1).status = 200 then (net 1).profile else Profile.empty, 2))
    ∧ (∀ net : Nat → OrgsResp,
        fetch_user_orgs net = (if (net 0).status = 200 then (net 0).orgs else [], 1))
    ∧ (∀ (net : Nat → PageResp) (repo : String) (N : Nat),
        (net 0).status = 403 → fetch_stargazers net repo N = ([], [])) := by
  refine ⟨?_, ?_, ?_, ?_⟩
  · intro net repo p ps k h
    by_cases h2 : (net (k + 1)).status = 200 <;>
      simp [fetchLoop, h, h2]
  · intro net h
    by_cases h2 : (net 1).status = 200 <;> simp [fetch_user_details, h, h2]
  · intro net
    by_cases h : (net 0).status = 200 <;> simp [fetch_user_orgs, h]
  · intro net repo N h
    simp [fetch_stargazers, h]

/-- Witness for C4 amended: the profile fetch at a 403-then-200 oracle. -/
theorem C4_amended_witness :
    fetch_user_details userNet403
      = (if (userNet403 1).status = 200 then (userNet403 1).profile
          else Profile.empty, 2) :=
  C4_amended.2.1 userNet403 (by decide)

/-! ## C5: page window -/

theorem startPage_le (N lastPage : Nat) : startPage N lastPage ≤ lastPage + 1 := by
  unfold startPage pagesToFetch
  omega

theorem mem_pageRange (N lastPage q : Nat) :
    q ∈ pageRange N lastPage ↔ startPage N lastPage ≤ q ∧ q ≤ lastPage := by
  have h := startPage_le N lastPage
  unfold pageRange
  rw [List.mem_range'_1]
  omega

theorem mem_fetchLoop_log (net : Nat → PageResp) (repo : String) (q : Nat) :
    ∀ (pages : List Nat) (k : Nat),
      q ∈ (fetchLoop net repo pages k).2 ↔ q ∈ pages := by
  intro pages
  induction pages with
  | nil => intro k; simp [fetchLoop]
  | cons p ps ih =>
    intro k
    rw [fetchLoop]
    by_cases h : (net k).status = 403 <;> simp [h, ih]

/-- C5: for every repository and maximum count, the page loop requests
exactly the consecutive pages from `max 1 (last_page - pages_needed + 1)`
through `last_page`, where `pages_needed` is capped at 5; in particular
with last page 3 and a 500-entry maximum it requests pages 1 to 3 and no
others. -/
theorem C5_page_window :
    (∀ (net : Nat → PageResp) (repo : String) (N : Nat),
        (net 0).status = 200 →
        pagesToFetch N ((net 0).lastPageLink.getD 1) ≤ 5
        ∧ ∀ q : Nat,
            q ∈ (fetch_stargazers net repo N).2 ↔
              (max 1 ((net 0).lastPageLink.getD 1
                  - pagesToFetch N ((net 0).lastPageLink.getD 1) + 1) ≤ q
                ∧ q ≤ (net 0).lastPageLink.getD 1))
    ∧ (fetch_stargazers pageNet3 "segmentio/analytics.js" 500).2 = [1, 2, 3] := by
  constructor
  · intro net repo N h
    refine ⟨min_le_right _ 5, ?_⟩
    intro q
    have hlog : (fetch_stargazers net repo N).2
        = (fetchLoop net repo (pageRange N ((net 0).lastPageLink.getD 1)) 1).2 := by
      simp [fetch_stargazers, h]
    rw [hlog, mem_fetchLoop_log, mem_pageRange]
    exact Iff.rfl
  · rfl

/-- Witness for C5 at the concrete three-page repository. -/
theorem C5_page_window_witness :
    2 ∈ (fetch_stargazers pageNet3 "mixpanel/mixpanel-js" 500).2 ↔
      (max 1 ((pageNet3 0).lastPageLink.getD 1
          - pagesToFetch 500 ((pageNet3 0).lastPageLink.getD 1) + 1) ≤ 2
        ∧ 2 ≤ (pageNet3 0).lastPageLink.getD 1) :=
  (C5_page_window.1 pageNet3 "mixpanel/mixpanel-js" 500 rfl).2 2

/-! ## C7: failed profile fetches degrade to empty profiles -/

/-- C7: whenever the profile request's final response (after the single
403 retry, if any) is non-200, `fetch_user_details` returns the empty
profile with every field absent; and enrichment never drops or aborts on a
user — it always produces one enriched record per input star event, in
order. -/
theorem C7_empty_profile :
    (∀ net : Nat → UserResp,
        (if (net 0).status = 403 then net 1 else net 0).status ≠ 200 →
        (fetch_user_details net).1 = Profile.empty
        ∧ Profile.empty.name = none ∧ Profile.empty.company = none
        ∧ Profile.empty.email = none ∧ Profile.empty.bio = none
        ∧ Profile.empty.location = none ∧ Profile.empty.blog = none
        ∧ Profile.empty.twitter = none ∧ Profile.empty.public_repos = none
        ∧ Profile.empty.followers = none)
    ∧ (∀ (unet : String → Nat → UserResp) (onet : String → Nat → OrgsResp)
        (stars : List StarEvent),
        (enrich_stargazers unet onet stars).length = stars.length
        ∧ (enrich_stargazers unet onet stars).map (fun e => e.username)
            = stars.map (fun s => s.username)) := by
  constructor
  · intro net h
    refine ⟨?_, rfl, rfl, rfl, rfl, rfl, rfl, rfl, rfl, rfl⟩
    simp only [fetch_user_details]
    rw [if_neg h]
  · intro unet onet stars
    constructor
    · simp [enrich_stargazers]
    · rw [show enrich_stargazers unet onet stars
          = stars.map (fun star =>
              { username := star.username, repo := star.repo,
                company_clean :=
                  clean_company_name (fetch_user_details (unet star.username)).1.company,
                org_count := (fetch_user_orgs (onet star.username)).1.length,
                email := (fetch_user_details (unet star.username)).1.email,
                followers := (fetch_user_details (unet star.username)).1.followers })
          from rfl]
      rw [List.map_map]
      rfl

/-- Witness for C7: a permanently failing profile endpoint yields the
all-absent profile. -/
theorem C7_empty_profile_witness :
    (fetch_user_details userNet500).1 = Profile.empty :=
  (C7_empty_profile.1 userNet500 (by decide)).1

/-! ## C8: snapshot is written before and independently of delivery -/

/-- C8: whenever collection is non-empty, `main` emits the local snapshot
write of the full scored lead list strictly before the webhook attempt; a
falsy webhook URL produces a skip (returning `false`, not an error) and a
non-2xx webhook response produces a post followed by a failure report —
and the delivery phase never writes or rewrites the snapshot. -/
theorem C8_snapshot_before_webhook :
    ∀ (net : String → Nat → PageResp) (unet : String → Nat → UserResp)
      (onet : String → Nat → OrgsResp) (url : Option String) (postStatus : Nat),
      collectAll net ≠ [] →
      mainRun net unet onet url postStatus
          = Event.enrichmentDone
              (enrich_stargazers unet onet (collectAll net)).length
            :: Event.saveLocal
              (dedupe_and_score (enrich_stargazers unet onet (collectAll net)))
            :: (send_to_clay url postStatus
              (dedupe_and_score (enrich_stargazers unet onet (collectAll net)))).1
        ∧ (urlTruthy url = false →
            send_to_clay url postStatus
              (dedupe_and_score (enrich_stargazers unet onet (collectAll net)))
              = ([Event.webhookSkipped], false))
        ∧ (urlTruthy url = true →
            ¬ (postStatus = 200 ∨ postStatus = 201 ∨ postStatus = 202) →
            send_to_clay url postStatus
              (dedupe_and_score (enrich_stargazers unet onet (collectAll net)))
              = ([Event.webhookPost
                    (dedupe_and_score (enrich_stargazers unet onet (collectAll net))),
                  Event.webhookFailure postStatus], false))
        ∧ ∀ L : List Lead,
            Event.saveLocal L ∉ (send_to_clay url postStatus
              (dedupe_and_score (enrich_stargazers unet onet (collectAll net)))).1 := by
  intro net unet onet url st h
  refine ⟨?_, ?_, ?_, ?_⟩
  · unfold mainRun
    rw [if_neg (by simpa [List.isEmpty_iff] using h)]
  · intro hfalse
    simp [send_to_clay, hfalse]
  · intro htrue hbad
    simp [send_to_clay, htrue, hbad]
  · intro L
    unfold send_to_clay
    split_ifs <;> simp

/-- Witness for C8: a one-stargazer collection with no webhook URL
configured is a delivery skip. -/
theorem C8_snapshot_before_webhook_witness :
    send_to_clay none 500
        (dedupe_and_score (enrich_stargazers userNetOk orgsNetOk (collectAll pageNetOne)))
      = ([Event.webhookSkipped], false) :=
  (C8_snapshot_before_webhook pageNetOne userNetOk orgsNetOk none 500 (by decide)).2.1 rfl

/-! ## C10: empty collection exits early -/

/-- C10: when collection yields no star events at all, `main` exits after
printing the early message: no enrichment, no snapshot write, and no
webhook POST happen. -/
theorem C10_early_exit :
    ∀ (net : String → Nat → PageResp) (unet : String → Nat → UserResp)
      (onet : String → Nat → OrgsResp) (url : Option String) (postStatus : Nat),
      collectAll net = [] →
      mainRun net unet onet url postStatus = [Event.exitEarly]
      ∧ (∀ L : List Lead, Event.saveLocal L ∉ mainRun net unet onet url postStatus)
      ∧ (∀ L : List Lead, Event.webhookPost L ∉ mainRun net unet onet url postStatus)
      ∧ (∀ n : Nat, Event.enrichmentDone n ∉ mainRun net unet onet url postStatus) := by
  intro net unet onet url st h
  have hm : mainRun net unet onet url st = [Event.exitEarly] := by
    unfold mainRun
    rw [if_pos (by simp [h])]
  refine ⟨hm, ?_, ?_, ?_⟩ <;> intro x <;> rw [hm] <;> simp

/-- Witness for C10: an all-404 stargazer endpoint collects nothing, and
`main` exits early even with a webhook URL configured. -/
theorem C10_early_exit_witness :
    mainRun pageNetFail userNetOk orgsNetOk (some "https://example.test/hook") 200
      = [Event.exitEarly] :=
  (C10_early_exit pageNetFail userNetOk orgsNetOk (some "https://example.test/hook") 200
    (by decide)).1

end Prospector
